import Mathlib

set_option autoImplicit false

/-!
Verification of the Visual Circuit Board blueprint decoder
(`vcbblueprint.py`) against its design specification.

The decoder is embedded shallowly: bytes are `Nat`s, the `io.BytesIO`
cursor is an explicit `ByteBuf`, the Zstandard decompressor is an
abstract parameter `Zstd` (returning `none` on a decompression failure),
and the lenient CPython `base64.b64decode` is embedded faithfully.
Failure kinds follow the spec's error taxonomy.
-/

/-- Decidable equality of `Except` results, used to evaluate the decoder on
concrete inputs. -/
instance instDecEqExcept {ε α : Type} [DecidableEq ε] [DecidableEq α] :
    DecidableEq (Except ε α) := fun a b =>
  match a, b with
  | .error e, .error f =>
    if h : e = f then .isTrue (by rw [h])
    else .isFalse (fun hc => h (by cases hc; rfl))
  | .error _, .ok _ => .isFalse (fun hc => Except.noConfusion hc)
  | .ok _, .error _ => .isFalse (fun hc => Except.noConfusion hc)
  | .ok a, .ok b =>
    if h : a = b then .isTrue (by rw [h])
    else .isFalse (fun hc => h (by cases hc; rfl))

namespace VCB

/-- Error kinds of the decoder, named as in the spec's error taxonomy.
`FormatError` covers the envelope `ValueError`s and an invalid-base64
failure; `TruncatedInputError` covers a `struct.error` on a short integer
read; `DecompressionError` a `zstd` failure; `SizeMismatchError` the size
`ValueError`s of the block check and of the numpy reshape. -/
inductive Err where
  | FormatError
  | TruncatedInputError
  | DecompressionError
  | SizeMismatchError
  deriving DecidableEq

/-- An in-memory byte buffer with a read position, embedding `io.BytesIO`. -/
structure ByteBuf where
  data : List Nat
  pos : Nat
  deriving DecidableEq

/-- Embeds `BytesIO.read`: a nonnegative count reads at most that many bytes
and advances the position by the number of bytes actually read; a negative
count reads everything up to the end of the buffer. -/
def bufRead (b : ByteBuf) (n : Int) : List Nat × ByteBuf :=
  if n < 0 then
    (b.data.drop b.pos, ⟨b.data, max b.pos b.data.length⟩)
  else
    let r := (b.data.drop b.pos).take n.toNat
    (r, ⟨b.data, b.pos + r.length⟩)

/-- Big-endian value of a byte list, as `struct.unpack(">I", ...)` computes it
on a 4-byte input. -/
def beInt (l : List Nat) : Nat :=
  l.foldl (fun a b => a * 256 + b) 0

/-- Embeds `_readint`: `struct.unpack(">I", buf.read(4))`. `struct.error` on a
short read is the spec's `TruncatedInputError`. -/
def _readint (b : ByteBuf) : Except Err (Nat × ByteBuf) :=
  let (r, b1) := bufRead b 4
  if r.length = 4 then .ok (beInt r, b1) else .error .TruncatedInputError

/-- Embeds `_read_header`: version (3 bytes), checksum (6 bytes), then the
big-endian `width` and `height`. The version and checksum reads return short
data without raising; only the two integer reads can fail. -/
def _read_header (b : ByteBuf) :
    Except Err ((List Nat) × (List Nat) × Nat × Nat × ByteBuf) :=
  match _readint (bufRead (bufRead b 3).2 6).2 with
  | .error e => .error e
  | .ok (width, b3) =>
    match _readint b3 with
    | .error e => .error e
    | .ok (height, b4) =>
      .ok ((bufRead b 3).1, (bufRead (bufRead b 3).2 6).1, width, height, b4)

/-- Shape of the abstract Zstandard decompressor: `none` embeds a raised
`zstd` error on input that is not a valid compressed frame. -/
abbrev Zstd := List Nat → Option (List Nat)

/-- Embeds `_read_block`: the 12-byte block header triple, then
`buf.read(block_size - 12)` — for `block_size < 12` a negative count, which
`BytesIO` serves by reading to the end — then decompression and the check of
the declared uncompressed size. -/
def _read_block (Z : Zstd) (b : ByteBuf) : Except Err (Nat × List Nat × ByteBuf) :=
  match _readint b with
  | .error e => .error e
  | .ok (block_size, b1) =>
    match _readint b1 with
    | .error e => .error e
    | .ok (layer_id, b2) =>
      match _readint b2 with
      | .error e => .error e
      | .ok (buffer_size, b3) =>
        match Z (bufRead b3 ((block_size : Int) - 12)).1 with
        | none => .error .DecompressionError
        | some uncompressed_data =>
          if uncompressed_data.length ≠ buffer_size then .error .SizeMismatchError
          else .ok (layer_id, uncompressed_data, (bufRead b3 ((block_size : Int) - 12)).2)

/-- Value of one character of the standard base64 alphabet, `none` for a
character outside the alphabet. -/
def b64val (c : Char) : Option Nat :=
  let n := c.toNat
  if 65 ≤ n ∧ n ≤ 90 then some (n - 65)
  else if 97 ≤ n ∧ n ≤ 122 then some (n - 71)
  else if 48 ≤ n ∧ n ≤ 57 then some (n + 4)
  else if n = 43 then some 62
  else if n = 47 then some 63
  else none

/-- Embeds the lenient `binascii.a2b_base64` loop used by
`base64.b64decode`: characters outside the alphabet are discarded; a pad
character with at least two data characters in the current quad and enough
accumulated pads ends decoding and the rest of the input is ignored; a data
character resets the pad count; leftover quad characters at the end are a
padding error (`binascii.Error`, `none` here). -/
def a2bLoop : List Char → Nat → Nat → Nat → List Nat → Option (List Nat)
  | [], quad_pos, _, _, acc => if quad_pos = 0 then some acc else none
  | c :: rest, quad_pos, leftchar, pads, acc =>
    if c = '=' then
      if 2 ≤ quad_pos then
        if 4 ≤ quad_pos + (pads + 1) then some acc
        else a2bLoop rest quad_pos leftchar (pads + 1) acc
      else a2bLoop rest quad_pos leftchar pads acc
    else
      match b64val c with
      | none => a2bLoop rest quad_pos leftchar pads acc
      | some v =>
        match quad_pos with
        | 0 => a2bLoop rest 1 v 0 acc
        | 1 => a2bLoop rest 2 (v % 16) 0 (acc ++ [leftchar * 4 + v / 16])
        | 2 => a2bLoop rest 3 (v % 4) 0 (acc ++ [leftchar * 16 + v / 4])
        | _ => a2bLoop rest 0 0 0 (acc ++ [leftchar * 64 + v])

/-- Embeds `base64.b64decode` on a `str` argument: the text must be pure
ASCII (otherwise `.encode("ascii")` raises), then the lenient binascii
decoder runs. -/
def b64decode (s : List Char) : Option (List Nat) :=
  if s.all (fun c => c.toNat < 128) then a2bLoop s 0 0 0 [] else none

/-- A decoded layer: the row-major (height, width, 4) raster view produced by
`np.frombuffer(...).reshape((height, width, 4))`. -/
abbrev Raster := List (List (List Nat))

/-- The layers dictionary of the decoder, in insertion order like a Python
`dict`. -/
abbrev Layers := List (Nat × Raster)

/-- Row-major (height, width, 4) reinterpretation of a flat byte list. -/
def reshapeRGBA (height width : Nat) (u : List Nat) : Raster :=
  (List.range height).map fun i =>
    (List.range width).map fun j => (u.drop ((i * width + j) * 4)) |>.take 4

/-- Embeds the Python dict assignment `layers[k] = v`: an existing entry for
`k` is overwritten in place, a new key is appended. -/
def dictInsert (m : Layers) (k : Nat) (v : Raster) : Layers :=
  if m.any (fun p => p.1 == k) then
    m.map fun p => if p.1 == k then (k, v) else p
  else m ++ [(k, v)]

/-- Lookup in the layers dictionary. -/
def lookupLayer (m : Layers) (k : Nat) : Option Raster :=
  (m.find? (fun p => p.1 == k)).map Prod.snd

/-- Number of entries of the layers dictionary holding key `k`. -/
def countKey (m : Layers) (k : Nat) : Nat :=
  (m.filter (fun p => p.1 == k)).length

/-- One unfolding level per iteration of the `while buf.tell() < len(...)`
loop of `read_blueprint`, with explicit fuel bounding the number of
iterations. On a successful block the raster reshape is checked against
`height * width * 4` (the numpy reshape `ValueError` is the spec's
`SizeMismatchError`) and the layer is inserted. The fuel-exhaustion branch is
unreachable for the fuel the wrapper `readBlocks` supplies, since every
successful block read advances the cursor. -/
def readBlocksF (Z : Zstd) (width height : Nat) :
    Nat → Layers → ByteBuf → Except Err Layers
  | 0, _, _ => .error .TruncatedInputError
  | fuel + 1, layers, b =>
    if b.pos < b.data.length then
      match _read_block Z b with
      | .error e => .error e
      | .ok (layer_id, uncompressed_data, b1) =>
        if uncompressed_data.length = height * width * 4 then
          readBlocksF Z width height fuel
            (dictInsert layers layer_id (reshapeRGBA height width uncompressed_data)) b1
        else .error .SizeMismatchError
    else .ok layers

/-- The block-reading loop of `read_blueprint`: iterate while the cursor is
strictly before the end of the decoded bytes. -/
def readBlocks (Z : Zstd) (width height : Nat) (layers : Layers) (b : ByteBuf) :
    Except Err Layers :=
  readBlocksF Z width height (b.data.length - b.pos + 1) layers b

/-- Embeds `read_blueprint` on the character sequence of the input string:
length check, identifier check, base64 decoding, header read, block loop. -/
def read_blueprint (Z : Zstd) (s : List Char) : Except Err (List Nat × Layers) :=
  if s.length < 40 then .error .FormatError
  else if s.take 4 ≠ ['V', 'C', 'B', '+'] then .error .FormatError
  else
    match b64decode (s.drop 4) with
    | none => .error .FormatError
    | some decoded_string =>
      match _read_header ⟨decoded_string, 0⟩ with
      | .error e => .error e
      | .ok (version, _, width, height, buf) =>
        match readBlocks Z width height [] buf with
        | .error e => .error e
        | .ok layers => .ok (version, layers)

/-- The stream of (layer id, raster) pairs a buffer yields, in block order:
the same loop as `readBlocksF` but collecting the decoded blocks instead of
folding them into the dictionary. -/
def blockTraceF (Z : Zstd) (width height : Nat) :
    Nat → ByteBuf → Except Err (List (Nat × Raster))
  | 0, _ => .error .TruncatedInputError
  | fuel + 1, b =>
    if b.pos < b.data.length then
      match _read_block Z b with
      | .error e => .error e
      | .ok (layer_id, uncompressed_data, b1) =>
        if uncompressed_data.length = height * width * 4 then
          match blockTraceF Z width height fuel b1 with
          | .error e => .error e
          | .ok L => .ok ((layer_id, reshapeRGBA height width uncompressed_data) :: L)
        else .error .SizeMismatchError
    else .ok []

/-- Wrapper for `blockTraceF` with the same fuel policy as `readBlocks`. -/
def blockTrace (Z : Zstd) (width height : Nat) (b : ByteBuf) :
    Except Err (List (Nat × Raster)) :=
  blockTraceF Z width height (b.data.length - b.pos + 1) b

/-- The (version, block stream) of a blueprint string, with the same envelope
and header handling as `read_blueprint`. -/
def blueprintTrace (Z : Zstd) (s : List Char) :
    Except Err (List Nat × List (Nat × Raster)) :=
  if s.length < 40 then .error .FormatError
  else if s.take 4 ≠ ['V', 'C', 'B', '+'] then .error .FormatError
  else
    match b64decode (s.drop 4) with
    | none => .error .FormatError
    | some decoded_string =>
      match _read_header ⟨decoded_string, 0⟩ with
      | .error e => .error e
      | .ok (version, _, width, height, buf) =>
        match blockTrace Z width height buf with
        | .error e => .error e
        | .ok L => .ok (version, L)

/-! ### Buffer and integer-read lemmas -/

theorem bufRead_data (b : ByteBuf) (n : Int) : (bufRead b n).2.data = b.data := by
  unfold bufRead
  split <;> simp

theorem bufRead_pos_le (b : ByteBuf) (n : Int) : b.pos ≤ (bufRead b n).2.pos := by
  unfold bufRead
  split
  · exact Nat.le_max_left _ _
  · exact Nat.le_add_right _ _

theorem bufRead_pos_le_length (b : ByteBuf) (n : Int) (h : b.pos ≤ b.data.length) :
    (bufRead b n).2.pos ≤ b.data.length := by
  unfold bufRead
  split
  · simp only [Nat.max_le]
    exact ⟨h, Nat.le_refl _⟩
  · simp only [List.length_take, List.length_drop]
    omega

/-- Normal form of `_readint`: it succeeds exactly when 4 bytes remain,
reading them big-endian and advancing the position by 4. -/
theorem _readint_eq (d : List Nat) (p : Nat) :
    _readint ⟨d, p⟩ =
      if 4 ≤ d.length - p then
        .ok (beInt ((d.drop p).take 4), ⟨d, p + 4⟩)
      else .error .TruncatedInputError := by
  have hlen : ((d.drop p).take 4).length = min 4 (d.length - p) := by
    simp
  by_cases h : 4 ≤ d.length - p
  · have h4 : ((d.drop p).take 4).length = 4 := by omega
    simp [_readint, bufRead, h, h4]
  · have h4 : ¬ ((d.drop p).take 4).length = 4 := by omega
    simp [_readint, bufRead, h, h4]

theorem _readint_ok {b b1 : ByteBuf} {n : Nat} (h : _readint b = .ok (n, b1)) :
    b1.data = b.data ∧ b1.pos = b.pos + 4 ∧ b.pos + 4 ≤ b.data.length ∧
      n = beInt ((b.data.drop b.pos).take 4) := by
  obtain ⟨d, p⟩ := b
  rw [_readint_eq] at h
  split at h
  · simp only [Except.ok.injEq, Prod.mk.injEq] at h
    obtain ⟨hn, hb⟩ := h
    subst hb
    simp_all
    omega
  · cases h

theorem _readint_error {b : ByteBuf} {e : Err} (h : _readint b = .error e) :
    e = .TruncatedInputError ∧ b.data.length - b.pos < 4 := by
  obtain ⟨d, p⟩ := b
  rw [_readint_eq] at h
  split at h
  · cases h
  · simp only [Except.error.injEq] at h
    subst h
    simp_all

/-! ### Block-read lemmas -/

theorem _read_block_ok {Z : Zstd} {b b1 : ByteBuf} {lid : Nat} {u : List Nat}
    (h : _read_block Z b = .ok (lid, u, b1)) :
    b1.data = b.data ∧ b.pos + 12 ≤ b1.pos ∧ b1.pos ≤ b.data.length := by
  unfold _read_block at h
  split at h
  · cases h
  next block_size bA h1 =>
    split at h
    · cases h
    next layer_id bB h2 =>
      split at h
      · cases h
      next buffer_size bC h3 =>
        split at h
        · cases h
        split at h
        · cases h
        next hne =>
          simp only [Except.ok.injEq, Prod.mk.injEq] at h
          obtain ⟨hlid, hu, hb⟩ := h
          subst hb
          obtain ⟨hd1, hp1, hl1, -⟩ := _readint_ok h1
          obtain ⟨hd2, hp2, hl2, -⟩ := _readint_ok h2
          obtain ⟨hd3, hp3, hl3, -⟩ := _readint_ok h3
          have hdl3 : bC.data.length = bB.data.length := by rw [hd3]
          have hdl2 : bB.data.length = bA.data.length := by rw [hd2]
          have hdl1 : bA.data.length = b.data.length := by rw [hd1]
          have hdata := bufRead_data bC ((block_size : Int) - 12)
          have hle := bufRead_pos_le bC ((block_size : Int) - 12)
          have hlen := bufRead_pos_le_length bC ((block_size : Int) - 12) (by omega)
          refine ⟨?_, by omega, by omega⟩
          rw [hdata, hd3, hd2, hd1]

theorem _read_block_error_kind {Z : Zstd} {b : ByteBuf} {e : Err}
    (h : _read_block Z b = .error e) : e ≠ .FormatError := by
  unfold _read_block at h
  split at h
  next e' h1 =>
    simp only [Except.error.injEq] at h
    subst h
    have := (_readint_error h1).1
    simp [this]
  next block_size bA h1 =>
    split at h
    next e' h2 =>
      simp only [Except.error.injEq] at h
      subst h
      have := (_readint_error h2).1
      simp [this]
    next layer_id bB h2 =>
      split at h
      next e' h3 =>
        simp only [Except.error.injEq] at h
        subst h
        have := (_readint_error h3).1
        simp [this]
      next buffer_size bC h3 =>
        split at h
        · simp only [Except.error.injEq] at h
          subst h
          simp
        split at h
        · simp only [Except.error.injEq] at h
          subst h
          simp
        · cases h

/-- Reading a 32-bit block header field with fewer than 12 bytes remaining
always hits a short `struct.unpack`, hence `TruncatedInputError`. -/
theorem _read_block_truncated (Z : Zstd) (d : List Nat) (p : Nat)
    (h : d.length - p < 12) : _read_block Z ⟨d, p⟩ = .error .TruncatedInputError := by
  by_cases h1 : 4 ≤ d.length - p
  · by_cases h2 : 4 ≤ d.length - (p + 4)
    · have h3 : ¬ 4 ≤ d.length - (p + 4 + 4) := by omega
      simp [_read_block, _readint_eq, h1, h2, h3]
    · simp [_read_block, _readint_eq, h1, h2]
  · simp [_read_block, _readint_eq, h1]

/-- Normal form of `_read_header` from position 0: with at least 17 bytes it
returns the version, checksum, width and height slices and leaves the cursor
at 17; otherwise one of the two integer reads is short. -/
theorem _read_header_eq (d : List Nat) :
    _read_header ⟨d, 0⟩ =
      if 17 ≤ d.length then
        .ok (d.take 3, (d.drop 3).take 6, beInt ((d.drop 9).take 4),
          beInt ((d.drop 13).take 4), ⟨d, 17⟩)
      else .error .TruncatedInputError := by
  have hpos2 : min 3 d.length + min 6 (d.length - min 3 d.length) = min 9 d.length := by
    omega
  by_cases h17 : 17 ≤ d.length
  · have hm3 : min 3 d.length = 3 := by omega
    have hm6 : min 6 (d.length - 3) = 6 := by omega
    have hc1 : 4 ≤ d.length - (3 + 6) := by omega
    have hc2 : 4 ≤ d.length - (3 + 6 + 4) := by omega
    simp [_read_header, bufRead, _readint_eq, hm3, hm6, hc1, hc2, h17,
      List.drop_drop]
  · by_cases h13 : 13 ≤ d.length
    · have hm9 : min 9 d.length = 9 := by omega
      have hc1 : 4 ≤ d.length - (min 3 d.length + min 6 (d.length - min 3 d.length)) := by
        omega
      have hc2 : ¬ 4 ≤ d.length - (min 3 d.length + min 6 (d.length - min 3 d.length) + 4) := by
        omega
      simp [_read_header, bufRead, _readint_eq, hc1, hc2, h17]
    · have hc1 : ¬ 4 ≤ d.length - (min 3 d.length + min 6 (d.length - min 3 d.length)) := by
        omega
      simp [_read_header, bufRead, _readint_eq, hc1, h17]

/-- Any failure of the header reader is a truncation failure. -/
theorem _read_header_error {b : ByteBuf} {e : Err} (h : _read_header b = .error e) :
    e = .TruncatedInputError := by
  unfold _read_header at h
  split at h
  next e1 h1 =>
    simp only [Except.error.injEq] at h
    subst h
    exact (_readint_error h1).1
  next w b3 h1 =>
    split at h
    next e2 h2 =>
      simp only [Except.error.injEq] at h
      subst h
      exact (_readint_error h2).1
    next hgt h2 => cases h

/-! ### Block-loop lemmas -/

/-- The result of the block loop does not depend on the fuel, provided the
fuel exceeds the number of remaining bytes (each successful block read
advances the cursor by at least 12). -/
theorem readBlocksF_fuel (Z : Zstd) (width height : Nat) :
    ∀ f1 f2 : Nat, ∀ (m : Layers) (b : ByteBuf),
      b.data.length - b.pos < f1 → b.data.length - b.pos < f2 →
      readBlocksF Z width height f1 m b = readBlocksF Z width height f2 m b := by
  intro f1
  induction f1 with
  | zero => intro f2 m b h1 h2; omega
  | succ f ih =>
    intro f2 m b h1 h2
    cases f2 with
    | zero => omega
    | succ g =>
      simp only [readBlocksF]
      by_cases hp : b.pos < b.data.length
      · rw [if_pos hp, if_pos hp]
        cases hb : _read_block Z b with
        | error e => rfl
        | ok t =>
          obtain ⟨lid, u, b1⟩ := t
          dsimp only
          by_cases hu : u.length = height * width * 4
          · rw [if_pos hu, if_pos hu]
            obtain ⟨hd, hge, hle⟩ := _read_block_ok hb
            apply ih
            · rw [hd]; omega
            · rw [hd]; omega
          · rw [if_neg hu, if_neg hu]
      · rw [if_neg hp, if_neg hp]

/-- One iteration of the block loop, at the level of the fuel wrapper. -/
theorem readBlocks_step (Z : Zstd) (width height : Nat) (m : Layers) (b : ByteBuf)
    (hp : b.pos < b.data.length) :
    readBlocks Z width height m b =
      match _read_block Z b with
      | .error e => .error e
      | .ok (layer_id, u, b1) =>
        if u.length = height * width * 4 then
          readBlocks Z width height (dictInsert m layer_id (reshapeRGBA height width u)) b1
        else .error .SizeMismatchError := by
  conv_lhs => rw [readBlocks]
  simp only [readBlocksF]
  rw [if_pos hp]
  cases hb : _read_block Z b with
  | error e => rfl
  | ok t =>
    obtain ⟨lid, u, b1⟩ := t
    dsimp only
    by_cases hu : u.length = height * width * 4
    · rw [if_pos hu, if_pos hu, readBlocks]
      obtain ⟨hd, hge, hle⟩ := _read_block_ok hb
      apply readBlocksF_fuel
      · rw [hd]; omega
      · rw [hd]; omega
    · rw [if_neg hu, if_neg hu]

/-- The block loop terminates cleanly once the cursor has reached the end. -/
theorem readBlocks_done (Z : Zstd) (width height : Nat) (m : Layers) (b : ByteBuf)
    (hp : ¬ b.pos < b.data.length) : readBlocks Z width height m b = .ok m := by
  unfold readBlocks
  simp only [readBlocksF]
  rw [if_neg hp]

/-- No failure of the block loop is a `FormatError`. -/
theorem readBlocksF_ne_format (Z : Zstd) (width height : Nat) :
    ∀ (f : Nat) (m : Layers) (b : ByteBuf) (e : Err),
      readBlocksF Z width height f m b = .error e → e ≠ .FormatError := by
  intro f
  induction f with
  | zero =>
    intro m b e h
    simp only [readBlocksF, Except.error.injEq] at h
    subst h
    simp
  | succ f ih =>
    intro m b e h
    simp only [readBlocksF] at h
    split at h
    · split at h
      next e1 h1 =>
        simp only [Except.error.injEq] at h
        subst h
        exact _read_block_error_kind h1
      next lid u b1 h1 =>
        split at h
        · exact ih _ _ _ h
        · simp only [Except.error.injEq] at h
          subst h
          simp
    · cases h

/-! ### Dictionary lemmas -/

theorem find?_map_insert_self (m : Layers) (k : Nat) (v : Raster)
    (h : m.any (fun p => p.1 == k) = true) :
    (m.map fun p => if p.1 == k then (k, v) else p).find? (fun p => p.1 == k) =
      some (k, v) := by
  induction m with
  | nil => simp at h
  | cons a t ih =>
    rw [List.map_cons]
    by_cases ha : (a.1 == k) = true
    · rw [if_pos ha, List.find?_cons]
      simp
    · have haf : (a.1 == k) = false := by simpa using ha
      rw [if_neg ha, List.find?_cons]
      simp only [haf]
      exact ih (by simpa [List.any_cons, haf] using h)

theorem lookupLayer_dictInsert_self (m : Layers) (k : Nat) (v : Raster) :
    lookupLayer (dictInsert m k v) k = some v := by
  unfold dictInsert lookupLayer
  by_cases h : m.any (fun p => p.1 == k) = true
  · rw [if_pos h, find?_map_insert_self m k v h]
    rfl
  · rw [if_neg h]
    have hm : m.find? (fun p => p.1 == k) = none := by
      rw [List.find?_eq_none]
      intro p hp hpk
      exact h (List.any_eq_true.mpr ⟨p, hp, hpk⟩)
    simp [List.find?_append, hm]

theorem find?_map_insert_ne (m : Layers) (k k' : Nat) (v : Raster) (h : ¬ k' = k) :
    (m.map fun p => if p.1 == k then (k, v) else p).find? (fun p => p.1 == k') =
      m.find? (fun p => p.1 == k') := by
  induction m with
  | nil => rfl
  | cons a t ih =>
    rw [List.map_cons, List.find?_cons, List.find?_cons]
    by_cases ha : (a.1 == k) = true
    · have hak : a.1 = k := by simpa using ha
      have h1 : ((k : Nat) == k') = false := by simp; omega
      have h2 : (a.1 == k') = false := by simp [hak]; omega
      rw [if_pos ha]
      simp only [h1, h2]
      exact ih
    · rw [if_neg ha]
      by_cases hk' : (a.1 == k') = true
      · simp only [hk']
      · have hk'f : (a.1 == k') = false := by simpa using hk'
        simp only [hk'f]
        exact ih

theorem lookupLayer_dictInsert_ne (m : Layers) (k k' : Nat) (v : Raster) (h : ¬ k' = k) :
    lookupLayer (dictInsert m k v) k' = lookupLayer m k' := by
  unfold dictInsert lookupLayer
  by_cases hany : m.any (fun p => p.1 == k) = true
  · rw [if_pos hany, find?_map_insert_ne m k k' v h]
  · rw [if_neg hany]
    have h1 : ((k : Nat) == k') = false := by simp; omega
    simp [List.find?_append, h1]

theorem filter_map_insert_self (m : Layers) (k : Nat) (v : Raster) :
    ((m.map fun p => if p.1 == k then (k, v) else p).filter
        (fun p => p.1 == k)).length = countKey m k := by
  unfold countKey
  induction m with
  | nil => rfl
  | cons a t ih =>
    rw [List.map_cons, List.filter_cons, List.filter_cons]
    by_cases ha : (a.1 == k) = true
    · rw [if_pos ha]
      have hkk : ((k : Nat) == k) = true := by simp
      simp only [ha, hkk, eq_self_iff_true, if_true, List.length_cons, ih]
    · have haf : (a.1 == k) = false := by simpa using ha
      rw [if_neg ha]
      simp only [haf]
      exact ih

theorem filter_map_insert_ne (m : Layers) (k k' : Nat) (v : Raster) (h : ¬ k' = k) :
    (m.map fun p => if p.1 == k then (k, v) else p).filter (fun p => p.1 == k') =
      m.filter (fun p => p.1 == k') := by
  induction m with
  | nil => rfl
  | cons a t ih =>
    rw [List.map_cons, List.filter_cons, List.filter_cons]
    by_cases ha : (a.1 == k) = true
    · have hak : a.1 = k := by simpa using ha
      have h1 : ((k : Nat) == k') = false := by simp; omega
      have h2 : (a.1 == k') = false := by simp [hak]; omega
      rw [if_pos ha]
      simp only [h1, h2]
      exact ih
    · rw [if_neg ha]
      by_cases hk' : (a.1 == k') = true
      · simp only [hk', ih]
      · have hk'f : (a.1 == k') = false := by simpa using hk'
        simp only [hk'f]
        exact ih

theorem any_key_iff (m : Layers) (k : Nat) :
    m.any (fun p => p.1 == k) = true ↔ 0 < countKey m k := by
  unfold countKey
  induction m with
  | nil => simp
  | cons a t ih =>
    rw [List.any_cons, List.filter_cons]
    by_cases ha : (a.1 == k) = true
    · simp [ha]
    · have haf : (a.1 == k) = false := by simpa using ha
      simp only [haf, Bool.false_or]
      exact ih

theorem countKey_dictInsert_self (m : Layers) (k : Nat) (v : Raster)
    (h : countKey m k ≤ 1) : countKey (dictInsert m k v) k = 1 := by
  unfold dictInsert
  by_cases hany : m.any (fun p => p.1 == k) = true
  · rw [if_pos hany]
    have h1 := filter_map_insert_self m k v
    have h2 := (any_key_iff m k).mp hany
    unfold countKey at *
    omega
  · rw [if_neg hany]
    have h0 : countKey m k = 0 := by
      by_contra hc
      exact hany ((any_key_iff m k).mpr (by omega))
    unfold countKey at *
    rw [List.filter_append, List.length_append, h0]
    simp

theorem countKey_dictInsert_ne (m : Layers) (k k' : Nat) (v : Raster) (h : ¬ k' = k) :
    countKey (dictInsert m k v) k' = countKey m k' := by
  unfold dictInsert countKey
  by_cases hany : m.any (fun p => p.1 == k) = true
  · rw [if_pos hany, filter_map_insert_ne m k k' v h]
  · rw [if_neg hany]
    have h1 : ((k : Nat) == k') = false := by simp; omega
    simp [List.filter_append, h1]

/-! ### Folding the block stream into the dictionary -/

/-- Folding a block stream into the layers dictionary, in stream order. -/
def foldIns (m : Layers) (L : List (Nat × Raster)) : Layers :=
  L.foldl (fun mm p => dictInsert mm p.1 p.2) m

theorem getLast?_cons_or {α : Type _} (a : α) (l : List α) :
    (a :: l).getLast? = l.getLast?.or (some a) := by
  cases l with
  | nil => rfl
  | cons b t =>
    rw [List.getLast?_cons_cons]
    cases hb : (b :: t).getLast? with
    | none =>
      rw [List.getLast?_eq_none_iff] at hb
      cases hb
    | some q => rfl

theorem lookupLayer_foldIns (L : List (Nat × Raster)) :
    ∀ (m : Layers) (k : Nat),
      lookupLayer (foldIns m L) k =
        ((L.filter (fun p => p.1 == k)).getLast?.map Prod.snd).or (lookupLayer m k) := by
  induction L with
  | nil => intro m k; rfl
  | cons a t ih =>
    intro m k
    rw [show foldIns m (a :: t) = foldIns (dictInsert m a.1 a.2) t from rfl]
    rw [ih, List.filter_cons]
    by_cases ha : (a.1 == k) = true
    · have hak : a.1 = k := by simpa using ha
      simp only [ha, if_true, getLast?_cons_or]
      rw [hak, lookupLayer_dictInsert_self]
      cases hft : (t.filter fun p => p.1 == k).getLast? with
      | none => rfl
      | some q => rfl
    · have haf : (a.1 == k) = false := by simpa using ha
      simp only [haf, Bool.false_eq_true, if_false]
      rw [lookupLayer_dictInsert_ne m a.1 k a.2 (by intro hq; exact ha (by simp [hq]))]

theorem countKey_foldIns (L : List (Nat × Raster)) :
    ∀ (m : Layers) (k : Nat), countKey m k ≤ 1 →
      countKey (foldIns m L) k ≤ 1 ∧
      (countKey m k = 1 → countKey (foldIns m L) k = 1) ∧
      ((L.any fun p => p.1 == k) = true → countKey (foldIns m L) k = 1) := by
  induction L with
  | nil =>
    intro m k h
    refine ⟨h, fun h1 => h1, fun habs => ?_⟩
    simp at habs
  | cons a t ih =>
    intro m k h
    rw [show foldIns m (a :: t) = foldIns (dictInsert m a.1 a.2) t from rfl]
    by_cases ha : (a.1 == k) = true
    · have hak : a.1 = k := by simpa using ha
      have h1 : countKey (dictInsert m a.1 a.2) k = 1 := by
        rw [hak]
        exact countKey_dictInsert_self m k a.2 h
      obtain ⟨hle, himp, -⟩ := ih (dictInsert m a.1 a.2) k (by omega)
      exact ⟨hle, fun _ => himp h1, fun _ => himp h1⟩
    · have hne : countKey (dictInsert m a.1 a.2) k = countKey m k :=
        countKey_dictInsert_ne m a.1 k a.2 (by intro hq; exact ha (by simp [hq]))
      obtain ⟨hle, himp, hany⟩ := ih (dictInsert m a.1 a.2) k (by omega)
      refine ⟨hle, fun h1 => himp (by omega), fun hA => ?_⟩
      rw [List.any_cons] at hA
      have haf : (a.1 == k) = false := by simpa using ha
      rw [haf, Bool.false_or] at hA
      exact hany hA

/-! ### The block loop computes the fold of the block stream -/

theorem readBlocksF_eq_traceF (Z : Zstd) (width height : Nat) :
    ∀ (f : Nat) (m : Layers) (b : ByteBuf),
      readBlocksF Z width height f m b =
        (blockTraceF Z width height f b).map (fun L => foldIns m L) := by
  intro f
  induction f with
  | zero => intro m b; rfl
  | succ f ih =>
    intro m b
    simp only [readBlocksF, blockTraceF]
    by_cases hp : b.pos < b.data.length
    · rw [if_pos hp, if_pos hp]
      cases hb : _read_block Z b with
      | error e => rfl
      | ok t =>
        obtain ⟨lid, u, b1⟩ := t
        dsimp only
        by_cases hu : u.length = height * width * 4
        · rw [if_pos hu, if_pos hu, ih]
          cases ht : blockTraceF Z width height f b1 with
          | error e => rfl
          | ok L => rfl
        · rw [if_neg hu, if_neg hu]
          rfl
    · rw [if_neg hp, if_neg hp]
      rfl

/-- The decoder's result is the per-block trace folded into the dictionary:
same envelope, same header, and overwrite-on-repeat insertion semantics. -/
theorem read_blueprint_eq_trace (Z : Zstd) (s : List Char) :
    read_blueprint Z s = (blueprintTrace Z s).map (fun p => (p.1, foldIns [] p.2)) := by
  unfold read_blueprint blueprintTrace
  by_cases h40 : s.length < 40
  · rw [if_pos h40, if_pos h40]
    rfl
  rw [if_neg h40, if_neg h40]
  by_cases hid : s.take 4 ≠ ['V', 'C', 'B', '+']
  · rw [if_pos hid, if_pos hid]
    rfl
  rw [if_neg hid, if_neg hid]
  cases hb : b64decode (s.drop 4) with
  | none => rfl
  | some d =>
    dsimp only
    cases hh : _read_header ⟨d, 0⟩ with
    | error e => rfl
    | ok t =>
      obtain ⟨v, c, w, h, buf⟩ := t
      dsimp only
      rw [show readBlocks Z w h [] buf =
            readBlocksF Z w h (buf.data.length - buf.pos + 1) [] buf from rfl,
        show blockTrace Z w h buf =
            blockTraceF Z w h (buf.data.length - buf.pos + 1) buf from rfl,
        readBlocksF_eq_traceF]
      cases ht : blockTraceF Z w h (buf.data.length - buf.pos + 1) buf with
      | error e => rfl
      | ok L => rfl

/-! ### Congruence in the checksum bytes -/

theorem drop_congr {d1 d2 : List Nat} (_hlen : d1.length = d2.length)
    (hsuf : d1.drop 9 = d2.drop 9) {p : Nat} (hp : 9 ≤ p) :
    d1.drop p = d2.drop p := by
  have h1 : d1.drop p = (d1.drop 9).drop (p - 9) := by
    rw [List.drop_drop]
    congr 1
    omega
  have h2 : d2.drop p = (d2.drop 9).drop (p - 9) := by
    rw [List.drop_drop]
    congr 1
    omega
  rw [h1, h2, hsuf]

theorem _readint_congr {d1 d2 : List Nat} (hlen : d1.length = d2.length)
    (hsuf : d1.drop 9 = d2.drop 9) {p : Nat} (hp : 9 ≤ p) :
    _readint ⟨d2, p⟩ =
      (_readint ⟨d1, p⟩).map (fun r => (r.1, (⟨d2, r.2.pos⟩ : ByteBuf))) := by
  rw [_readint_eq, _readint_eq, ← hlen, ← drop_congr hlen hsuf hp]
  by_cases hc : 4 ≤ d1.length - p
  · rw [if_pos hc, if_pos hc]
    rfl
  · rw [if_neg hc, if_neg hc]
    rfl

theorem bufRead_congr {d1 d2 : List Nat} (hlen : d1.length = d2.length)
    (hsuf : d1.drop 9 = d2.drop 9) {p : Nat} (hp : 9 ≤ p) (n : Int) :
    bufRead ⟨d2, p⟩ n =
      ((bufRead ⟨d1, p⟩ n).1, (⟨d2, (bufRead ⟨d1, p⟩ n).2.pos⟩ : ByteBuf)) := by
  unfold bufRead
  by_cases hn : n < 0
  · rw [if_pos hn, if_pos hn]
    dsimp only
    rw [← drop_congr hlen hsuf hp, ← hlen]
  · rw [if_neg hn, if_neg hn]
    dsimp only
    rw [← drop_congr hlen hsuf hp]

theorem _read_block_congr (Z : Zstd) {d1 d2 : List Nat} (hlen : d1.length = d2.length)
    (hsuf : d1.drop 9 = d2.drop 9) {p : Nat} (hp : 9 ≤ p) :
    _read_block Z ⟨d2, p⟩ =
      (_read_block Z ⟨d1, p⟩).map
        (fun r => (r.1, r.2.1, (⟨d2, r.2.2.pos⟩ : ByteBuf))) := by
  unfold _read_block
  rw [_readint_eq, _readint_eq, ← hlen, ← drop_congr hlen hsuf hp]
  by_cases hc1 : 4 ≤ d1.length - p
  case neg =>
    rw [if_neg hc1, if_neg hc1]
    rfl
  rw [if_pos hc1, if_pos hc1]
  dsimp only
  rw [_readint_eq, _readint_eq, ← hlen,
    ← drop_congr hlen hsuf (show 9 ≤ p + 4 by omega)]
  by_cases hc2 : 4 ≤ d1.length - (p + 4)
  case neg =>
    rw [if_neg hc2, if_neg hc2]
    rfl
  rw [if_pos hc2, if_pos hc2]
  dsimp only
  rw [_readint_eq, _readint_eq, ← hlen,
    ← drop_congr hlen hsuf (show 9 ≤ p + 4 + 4 by omega)]
  by_cases hc3 : 4 ≤ d1.length - (p + 4 + 4)
  case neg =>
    rw [if_neg hc3, if_neg hc3]
    rfl
  rw [if_pos hc3, if_pos hc3]
  dsimp only
  rw [bufRead_congr hlen hsuf (show 9 ≤ p + 4 + 4 + 4 by omega)]
  dsimp only
  cases hz : Z (bufRead ⟨d1, p + 4 + 4 + 4⟩
      ((beInt ((d1.drop p).take 4) : Int) - 12)).1 with
  | none => rfl
  | some u =>
    dsimp only
    by_cases hu : u.length ≠ beInt ((d1.drop (p + 4 + 4)).take 4)
    · rw [if_pos hu, if_pos hu]
      rfl
    · rw [if_neg hu, if_neg hu]
      rfl

theorem readBlocksF_congr (Z : Zstd) (width height : Nat) {d1 d2 : List Nat}
    (hlen : d1.length = d2.length) (hsuf : d1.drop 9 = d2.drop 9) :
    ∀ (f : Nat) (m : Layers) (p : Nat), 9 ≤ p →
      readBlocksF Z width height f m ⟨d2, p⟩ = readBlocksF Z width height f m ⟨d1, p⟩ := by
  intro f
  induction f with
  | zero => intro m p hp; rfl
  | succ f ih =>
    intro m p hp
    simp only [readBlocksF]
    by_cases hc : p < d1.length
    · rw [if_pos (show p < (⟨d2, p⟩ : ByteBuf).data.length by dsimp; omega),
        if_pos (show p < (⟨d1, p⟩ : ByteBuf).data.length from hc)]
      rw [_read_block_congr Z hlen hsuf hp]
      cases hb : _read_block Z ⟨d1, p⟩ with
      | error e => rfl
      | ok t =>
        obtain ⟨lid, u, b1⟩ := t
        obtain ⟨hd1, hge1, -⟩ := _read_block_ok hb
        obtain ⟨b1d, b1p⟩ := b1
        dsimp only at hd1 hge1
        rw [hd1]
        dsimp only [Except.map]
        by_cases hu : u.length = height * width * 4
        · rw [if_pos hu, if_pos hu]
          exact ih _ _ (by omega)
        · rw [if_neg hu, if_neg hu]
    · rw [if_neg (show ¬ p < (⟨d2, p⟩ : ByteBuf).data.length by dsimp; omega),
        if_neg (show ¬ p < (⟨d1, p⟩ : ByteBuf).data.length from hc)]

/-! ### Claim theorems -/

/-- C3: `read_blueprint` fails with `FormatError` exactly when the envelope is
malformed: the input string is shorter than 40 characters, or its first 4
characters are not the literal "VCB+", or the remainder is not valid base64
(its decoding raises); no later stage produces a `FormatError`. -/
theorem format_error_iff_bad_envelope (Z : Zstd) (s : List Char) :
    read_blueprint Z s = .error .FormatError ↔
      (s.length < 40 ∨ s.take 4 ≠ ['V', 'C', 'B', '+'] ∨
        b64decode (s.drop 4) = none) := by
  unfold read_blueprint
  by_cases h40 : s.length < 40
  · rw [if_pos h40]
    simp [h40]
  rw [if_neg h40]
  by_cases hid : s.take 4 ≠ ['V', 'C', 'B', '+']
  · rw [if_pos hid]
    simp [h40, hid]
  rw [if_neg hid]
  cases hb : b64decode (s.drop 4) with
  | none => simp [h40, hid]
  | some d =>
    dsimp only
    constructor
    · intro h
      exfalso
      revert h
      cases hh : _read_header ⟨d, 0⟩ with
      | error e =>
        intro h
        simp only [Except.error.injEq] at h
        exact absurd (_read_header_error hh) (by rw [h]; simp)
      | ok t =>
        obtain ⟨v, c, w, hgt, buf⟩ := t
        dsimp only
        cases hl : readBlocks Z w hgt [] buf with
        | error e =>
          intro h
          simp only [Except.error.injEq] at h
          exact readBlocksF_ne_format Z w hgt _ _ _ _ hl (by rw [h])
        | ok layers =>
          intro h
          cases h
    · intro h
      rcases h with h | h | h
      · exact absurd h h40
      · exact absurd h hid
      · cases h

/-- C4: with fewer than 17 decoded bytes the header read fails with
`TruncatedInputError`; with at least 17 bytes it succeeds, returning the 3
version bytes, the 6 checksum bytes and the two big-endian u32 fields width
and height, and advancing the cursor to exactly byte 17. -/
theorem header_consumes_17_bytes (bytes : List Nat) :
    (bytes.length < 17 → _read_header ⟨bytes, 0⟩ = .error .TruncatedInputError) ∧
    (17 ≤ bytes.length → _read_header ⟨bytes, 0⟩ =
      .ok (bytes.take 3, (bytes.drop 3).take 6, beInt ((bytes.drop 9).take 4),
        beInt ((bytes.drop 13).take 4), ⟨bytes, 17⟩)) := by
  constructor
  · intro h
    rw [_read_header_eq, if_neg (by omega)]
  · intro h
    rw [_read_header_eq, if_pos h]

/-- C5 (amended): when a new block is expected and fewer than 12 bytes
remain, the decode fails with `TruncatedInputError`; but a declared
`block_size < 12` is not rejected: the negative payload length makes
`buf.read` return all remaining bytes and the block read proceeds to
decompress them (so any failure there is the decompressor's, not a
truncation error). -/
theorem block_header_truncation_amended (Z : Zstd) (width height : Nat)
    (m : Layers) (d : List Nat) (p : Nat) :
    (p < d.length → d.length - p < 12 →
      readBlocks Z width height m ⟨d, p⟩ = .error .TruncatedInputError) ∧
    (∀ block_size bA layer_id bB buffer_size bC,
      _readint ⟨d, p⟩ = .ok (block_size, bA) →
      _readint bA = .ok (layer_id, bB) →
      _readint bB = .ok (buffer_size, bC) →
      block_size < 12 →
      _read_block Z ⟨d, p⟩ =
        match Z (d.drop bC.pos) with
        | none => .error .DecompressionError
        | some u =>
          if u.length ≠ buffer_size then .error .SizeMismatchError
          else .ok (layer_id, u, ⟨d, d.length⟩)) := by
  constructor
  · intro hp hlt
    rw [readBlocks_step Z width height m ⟨d, p⟩ hp,
      _read_block_truncated Z d p hlt]
  · intro block_size bA layer_id bB buffer_size bC h1 h2 h3 hbs
    obtain ⟨hdA, hpA, hlA, -⟩ := _readint_ok h1
    obtain ⟨hdB, hpB, hlB, -⟩ := _readint_ok h2
    obtain ⟨hdC, hpC, hlC, -⟩ := _readint_ok h3
    have hdCd : bC.data = d := by rw [hdC, hdB, hdA]
    have hlBd : bB.data.length = d.length := by rw [hdB, hdA]
    unfold _read_block
    rw [h1]
    dsimp only
    rw [h2]
    dsimp only
    rw [h3]
    dsimp only
    have hneg : ((block_size : Int) - 12) < 0 := by omega
    rw [show bufRead bC ((block_size : Int) - 12) =
        (bC.data.drop bC.pos, ⟨bC.data, max bC.pos bC.data.length⟩) from by
      unfold bufRead
      rw [if_pos hneg]]
    dsimp only
    have hposC : bC.pos ≤ d.length := by omega
    rw [hdCd]
    rw [show max bC.pos d.length = d.length from by omega]

/-- C6 (amended): when a block's header triple parses but fewer than
`block_size - 12` bytes remain, the code performs a short read of all the
available bytes and attempts to decompress them; the outcome is the
decompressor's (or a size mismatch), never a `TruncatedInputError` raised for
the short read itself. -/
theorem short_payload_short_read_amended (Z : Zstd) (d : List Nat) (p : Nat)
    (block_size : Nat) (bA : ByteBuf) (layer_id : Nat) (bB : ByteBuf)
    (buffer_size : Nat) (bC : ByteBuf)
    (h1 : _readint ⟨d, p⟩ = .ok (block_size, bA))
    (h2 : _readint bA = .ok (layer_id, bB))
    (h3 : _readint bB = .ok (buffer_size, bC))
    (h12 : 12 ≤ block_size)
    (hshort : d.length - bC.pos < block_size - 12) :
    _read_block Z ⟨d, p⟩ =
      match Z (d.drop bC.pos) with
      | none => .error .DecompressionError
      | some u =>
        if u.length ≠ buffer_size then .error .SizeMismatchError
        else .ok (layer_id, u, ⟨d, d.length⟩) := by
  obtain ⟨hdA, hpA, hlA, -⟩ := _readint_ok h1
  obtain ⟨hdB, hpB, hlB, -⟩ := _readint_ok h2
  obtain ⟨hdC, hpC, hlC, -⟩ := _readint_ok h3
  have hdCd : bC.data = d := by rw [hdC, hdB, hdA]
  have hlBd : bB.data.length = d.length := by rw [hdB, hdA]
  have hposC : bC.pos ≤ d.length := by omega
  unfold _read_block
  rw [h1]
  dsimp only
  rw [h2]
  dsimp only
  rw [h3]
  dsimp only
  have hnn : ¬ ((block_size : Int) - 12) < 0 := by omega
  have htn : ((block_size : Int) - 12).toNat = block_size - 12 := by omega
  have htake : ((bC.data.drop bC.pos).take (block_size - 12)) = d.drop bC.pos := by
    rw [hdCd]
    apply List.take_of_length_le
    simp only [List.length_drop]
    omega
  rw [show bufRead bC ((block_size : Int) - 12) =
      (d.drop bC.pos, ⟨d, d.length⟩) from by
    unfold bufRead
    rw [if_neg hnn]
    dsimp only
    rw [htn, htake, hdCd]
    have hps : bC.pos + (d.length - bC.pos) = d.length := by omega
    simp only [List.length_drop, hps]]

/-- C2: a block whose payload decompresses to a length different from the
declared `uncompressed_size` field makes the block read, and with it the
whole block loop, fail with `SizeMismatchError`; the error result carries no
layers, so nothing is inserted for that block and no partial result exists. -/
theorem uncompressed_size_mismatch_raises (Z : Zstd) (width height : Nat)
    (m : Layers) (d : List Nat) (p : Nat) (block_size : Nat) (bA : ByteBuf)
    (layer_id : Nat) (bB : ByteBuf) (buffer_size : Nat) (bC : ByteBuf)
    (u : List Nat)
    (h1 : _readint ⟨d, p⟩ = .ok (block_size, bA))
    (h2 : _readint bA = .ok (layer_id, bB))
    (h3 : _readint bB = .ok (buffer_size, bC))
    (hz : Z (bufRead bC ((block_size : Int) - 12)).1 = some u)
    (hmm : u.length ≠ buffer_size)
    (hp : p < d.length) :
    _read_block Z ⟨d, p⟩ = .error .SizeMismatchError ∧
    readBlocks Z width height m ⟨d, p⟩ = .error .SizeMismatchError := by
  have hblk : _read_block Z ⟨d, p⟩ = .error .SizeMismatchError := by
    unfold _read_block
    rw [h1]
    dsimp only
    rw [h2]
    dsimp only
    rw [h3]
    dsimp only
    rw [hz]
    dsimp only
    rw [if_pos hmm]
  exact ⟨hblk, by rw [readBlocks_step Z width height m ⟨d, p⟩ hp, hblk]⟩

/-- C7: after a successful block read, a decompressed payload whose length is
not `width * height * 4` makes the layer-assembly step fail with
`SizeMismatchError`; a payload of exactly that length is reinterpreted as the
row-major (height, width, 4) raster and inserted before the loop continues. -/
theorem raster_size_check (Z : Zstd) (width height : Nat) (m : Layers)
    (b : ByteBuf) (layer_id : Nat) (u : List Nat) (b1 : ByteBuf)
    (hb : _read_block Z b = .ok (layer_id, u, b1)) (hp : b.pos < b.data.length) :
    (u.length ≠ width * height * 4 →
      readBlocks Z width height m b = .error .SizeMismatchError) ∧
    (u.length = width * height * 4 →
      readBlocks Z width height m b =
        readBlocks Z width height
          (dictInsert m layer_id (reshapeRGBA height width u)) b1) := by
  rw [readBlocks_step Z width height m b hp, hb]
  dsimp only
  constructor
  · intro h
    rw [if_neg (fun hc => h (by rw [hc]; ring))]
  · intro h
    rw [if_pos (by rw [h]; ring)]

/-- C10: a well-formed envelope whose decoded payload is exactly the 17-byte
header decodes successfully to the parsed version and an empty layer
mapping: the block loop runs zero times. -/
theorem header_only_empty_layers (Z : Zstd) (s : List Char) (d : List Nat)
    (h40 : ¬ s.length < 40) (hpre : s.take 4 = ['V', 'C', 'B', '+'])
    (hb : b64decode (s.drop 4) = some d) (h17 : d.length = 17) :
    read_blueprint Z s = .ok (d.take 3, []) := by
  unfold read_blueprint
  rw [if_neg h40, if_neg (not_not_intro hpre), hb]
  dsimp only
  rw [_read_header_eq, if_pos (by omega)]
  dsimp only
  rw [readBlocks_done Z _ _ [] ⟨d, 17⟩ (by dsimp only; omega)]

/-- C1: a blueprint whose header declares width 2 and height 1 and whose
single block has layer id 7, declared uncompressed size 8 and a correctly
sized compressed payload that decompresses to the 8 bytes
255,0,0,255,0,255,0,255 decodes to the parsed version together with the
single-layer mapping sending 7 to the row-major (1,2,4) raster
[[[255,0,0,255],[0,255,0,255]]]. -/
theorem blueprint_example_decodes (Z : Zstd) (s : List Char)
    (version checksum bs4 cp : List Nat)
    (h40 : ¬ s.length < 40) (hpre : s.take 4 = ['V', 'C', 'B', '+'])
    (hv : version.length = 3) (hc : checksum.length = 6) (hbs4 : bs4.length = 4)
    (hbsv : beInt bs4 = 12 + cp.length)
    (hb : b64decode (s.drop 4) =
      some (version ++ (checksum ++ ([0, 0, 0, 2] ++ ([0, 0, 0, 1] ++
        (bs4 ++ ([0, 0, 0, 7] ++ ([0, 0, 0, 8] ++ cp))))))))
    (hz : Z cp = some [255, 0, 0, 255, 0, 255, 0, 255]) :
    read_blueprint Z s =
      .ok (version, [(7, [[[255, 0, 0, 255], [0, 255, 0, 255]]])]) := by
  set D : List Nat := version ++ (checksum ++ ([0, 0, 0, 2] ++ ([0, 0, 0, 1] ++
    (bs4 ++ ([0, 0, 0, 7] ++ ([0, 0, 0, 8] ++ cp)))))) with hD
  have hDlen : D.length = 29 + cp.length := by
    simp only [hD, List.length_append, hv, hc, hbs4, List.length_cons,
      List.length_nil]
    omega
  have ht3 : D.take 3 = version := List.take_left' hv
  have hd3 : D.drop 3 = checksum ++ ([0, 0, 0, 2] ++ ([0, 0, 0, 1] ++
      (bs4 ++ ([0, 0, 0, 7] ++ ([0, 0, 0, 8] ++ cp))))) := List.drop_left' hv
  have hd9 : D.drop 9 = [0, 0, 0, 2] ++ ([0, 0, 0, 1] ++
      (bs4 ++ ([0, 0, 0, 7] ++ ([0, 0, 0, 8] ++ cp)))) := by
    rw [show (9 : Nat) = 3 + 6 from rfl, ← List.drop_drop, hd3, List.drop_left' hc]
  have hd13 : D.drop 13 = [0, 0, 0, 1] ++
      (bs4 ++ ([0, 0, 0, 7] ++ ([0, 0, 0, 8] ++ cp))) := by
    rw [show (13 : Nat) = 9 + 4 from rfl, ← List.drop_drop, hd9,
      List.drop_left' (by rfl)]
  have hd17 : D.drop 17 = bs4 ++ ([0, 0, 0, 7] ++ ([0, 0, 0, 8] ++ cp)) := by
    rw [show (17 : Nat) = 13 + 4 from rfl, ← List.drop_drop, hd13,
      List.drop_left' (by rfl)]
  have hd21 : D.drop 21 = [0, 0, 0, 7] ++ ([0, 0, 0, 8] ++ cp) := by
    rw [show (21 : Nat) = 17 + 4 from rfl, ← List.drop_drop, hd17,
      List.drop_left' hbs4]
  have hd25 : D.drop 25 = [0, 0, 0, 8] ++ cp := by
    rw [show (25 : Nat) = 21 + 4 from rfl, ← List.drop_drop, hd21,
      List.drop_left' (by rfl)]
  have hd29 : D.drop 29 = cp := by
    rw [show (29 : Nat) = 25 + 4 from rfl, ← List.drop_drop, hd25,
      List.drop_left' (by rfl)]
  have ht9 : (D.drop 9).take 4 = [0, 0, 0, 2] := by
    rw [hd9, List.take_left' (by rfl)]
  have ht13 : (D.drop 13).take 4 = [0, 0, 0, 1] := by
    rw [hd13, List.take_left' (by rfl)]
  have ht17 : (D.drop 17).take 4 = bs4 := by
    rw [hd17, List.take_left' hbs4]
  have ht21 : (D.drop 21).take 4 = [0, 0, 0, 7] := by
    rw [hd21, List.take_left' (by rfl)]
  have ht25 : (D.drop 25).take 4 = [0, 0, 0, 8] := by
    rw [hd25, List.take_left' (by rfl)]
  have hblk : _read_block Z ⟨D, 17⟩ =
      .ok (7, [255, 0, 0, 255, 0, 255, 0, 255], ⟨D, D.length⟩) := by
    unfold _read_block
    rw [_readint_eq, if_pos (by omega)]
    dsimp only
    rw [ht17, hbsv]
    rw [_readint_eq, if_pos (by omega)]
    dsimp only
    rw [show (17 : Nat) + 4 = 21 from rfl, ht21,
      show beInt [0, 0, 0, 7] = 7 from rfl]
    rw [_readint_eq, if_pos (by omega)]
    dsimp only
    rw [show (21 : Nat) + 4 = 25 from rfl, ht25,
      show beInt [0, 0, 0, 8] = 8 from rfl]
    rw [show (25 : Nat) + 4 = 29 from rfl]
    rw [show ((12 + cp.length : Nat) : Int) - 12 = ((cp.length : Nat) : Int) from by
      push_cast
      ring]
    rw [show bufRead ⟨D, 29⟩ ((cp.length : Nat) : Int) = (cp, ⟨D, D.length⟩) from by
      unfold bufRead
      rw [if_neg (by omega)]
      dsimp only
      rw [show ((cp.length : Nat) : Int).toNat = cp.length from by omega, hd29,
        List.take_length]
      have h29 : 29 + cp.length = D.length := by omega
      rw [h29]]
    dsimp only
    rw [hz]
    dsimp only
    rw [if_neg (by decide)]
  unfold read_blueprint
  rw [if_neg h40, if_neg (not_not_intro hpre), hb]
  dsimp only
  rw [_read_header_eq, if_pos (by omega)]
  dsimp only
  rw [ht9, ht13, show beInt [0, 0, 0, 2] = 2 from rfl,
    show beInt [0, 0, 0, 1] = 1 from rfl]
  rw [readBlocks_step Z 2 1 [] ⟨D, 17⟩ (by dsimp only; omega), hblk]
  dsimp only
  rw [if_pos (by decide)]
  rw [readBlocks_done Z 2 1 _ ⟨D, D.length⟩ (by dsimp only; omega)]
  rw [ht3]
  rfl

/-- C8: in a successful decode whose block stream holds two or more blocks
sharing one layer id, the output mapping has exactly one entry for that id,
holding the raster decoded from the last such block in stream order. -/
theorem duplicate_layer_id_overwrites (Z : Zstd) (s : List Char)
    (v : List Nat) (m : Layers) (L : List (Nat × Raster)) (k : Nat)
    (hr : read_blueprint Z s = .ok (v, m))
    (ht : blueprintTrace Z s = .ok (v, L))
    (hk : 2 ≤ (L.filter (fun p => p.1 == k)).length) :
    countKey m k = 1 ∧
    lookupLayer m k = ((L.filter (fun p => p.1 == k)).getLast?).map Prod.snd := by
  have hbridge := read_blueprint_eq_trace Z s
  rw [hr, ht] at hbridge
  simp only [Except.map, Except.ok.injEq, Prod.mk.injEq] at hbridge
  have hm : m = foldIns [] L := hbridge.2
  subst hm
  constructor
  · obtain ⟨-, -, hany⟩ := countKey_foldIns L [] k (by simp [countKey])
    apply hany
    have hpos : 0 < (L.filter (fun p => p.1 == k)).length := by omega
    obtain ⟨x, hx⟩ := List.exists_mem_of_length_pos hpos
    have hx' := List.mem_filter.mp hx
    exact List.any_eq_true.mpr ⟨x, hx'.1, hx'.2⟩
  · rw [lookupLayer_foldIns]
    cases hlast : (L.filter (fun p => p.1 == k)).getLast? with
    | none => rfl
    | some q => rfl

/-- C9: the six checksum bytes never influence the result: two well-formed
envelopes whose decoded byte payloads agree everywhere except on bytes 3..9
decode to the same result, identical success or identical failure. -/
theorem checksum_bytes_ignored (Z : Zstd) (s1 s2 : List Char) (d1 d2 : List Nat)
    (hl1 : ¬ s1.length < 40) (hl2 : ¬ s2.length < 40)
    (hp1 : s1.take 4 = ['V', 'C', 'B', '+']) (hp2 : s2.take 4 = ['V', 'C', 'B', '+'])
    (hb1 : b64decode (s1.drop 4) = some d1) (hb2 : b64decode (s2.drop 4) = some d2)
    (hlen : d1.length = d2.length)
    (hpre : d1.take 3 = d2.take 3)
    (hsuf : d1.drop 9 = d2.drop 9) :
    read_blueprint Z s1 = read_blueprint Z s2 := by
  unfold read_blueprint
  rw [if_neg hl1, if_neg hl2, if_neg (not_not_intro hp1),
    if_neg (not_not_intro hp2), hb1, hb2]
  dsimp only
  rw [_read_header_eq d1, _read_header_eq d2, ← hlen]
  by_cases h17 : 17 ≤ d1.length
  · rw [if_pos h17, if_pos h17]
    dsimp only
    rw [← drop_congr hlen hsuf (show 9 ≤ 9 by omega),
      ← drop_congr hlen hsuf (show 9 ≤ 13 by omega), ← hpre]
    have hcong : readBlocks Z (beInt ((d1.drop 9).take 4))
        (beInt ((d1.drop 13).take 4)) [] ⟨d2, 17⟩ =
        readBlocks Z (beInt ((d1.drop 9).take 4))
          (beInt ((d1.drop 13).take 4)) [] ⟨d1, 17⟩ := by
      unfold readBlocks
      dsimp only
      rw [← hlen]
      exact readBlocksF_congr Z _ _ hlen hsuf _ [] 17 (by omega)
    rw [hcong]
  · rw [if_neg h17, if_neg h17]

/-! ### Concrete inputs for witnesses and counterexamples -/

/-- Decompressor that rejects every frame. -/
def zNone : Zstd := fun _ => none

/-- Decompressor for the single-block example: the one-byte frame [42]
decompresses to the example raster bytes. -/
def zOne : Zstd := fun c =>
  if c = [42] then some [255, 0, 0, 255, 0, 255, 0, 255] else none

/-- Decompressor for the two-block example: frames [91] and [92] decompress
to two different 8-byte buffers. -/
def zTwo : Zstd := fun c =>
  if c = [91] then some [255, 0, 0, 255, 0, 255, 0, 255]
  else if c = [92] then some [10, 20, 30, 40, 50, 60, 70, 80] else none

/-- Decompressor mapping the frame [5] to a 3-byte buffer. -/
def zThree : Zstd := fun c => if c = [5] then some [1, 2, 3] else none

/-- Decompressor mapping the frame [5] to a 4-byte buffer. -/
def zFour : Zstd := fun c => if c = [5] then some [1, 2, 3, 4] else none

/-- Envelope of a 30-byte payload: header (version 1.2.3, checksum 9s,
width 2, height 1) and one block (size 13, layer 7, uncompressed size 8,
frame [42]). -/
def sExample : List Char := "VCB+AQIDCQkJCQkJAAAAAgAAAAEAAAANAAAABwAAAAgq".toList

/-- A 29-byte payload: 17-byte header then a block declaring block_size 0. -/
def bytesSmallBlock : List Nat :=
  [1, 2, 3, 0, 0, 0, 0, 0, 0, 0, 0, 0, 2, 0, 0, 0, 1,
   0, 0, 0, 0, 0, 0, 0, 1, 0, 0, 0, 5]

/-- Envelope of `bytesSmallBlock`. -/
def sSmallBlock : List Char := "VCB+AQIDAAAAAAAAAAAAAgAAAAEAAAAAAAAAAQAAAAU=".toList

/-- A 31-byte payload: 17-byte header then a block declaring block_size 16
(payload length 4) with only 2 payload bytes present. -/
def bytesShortPayload : List Nat :=
  [1, 2, 3, 0, 0, 0, 0, 0, 0, 0, 0, 0, 2, 0, 0, 0, 1,
   0, 0, 0, 16, 0, 0, 0, 7, 0, 0, 0, 4, 1, 2]

/-- Envelope of `bytesShortPayload`. -/
def sShortPayload : List Char := "VCB+AQIDAAAAAAAAAAAAAgAAAAEAAAAQAAAABwAAAAQBAg==".toList

/-- Envelope of a 43-byte payload: header then two blocks both with layer id
7, frames [91] and [92]. -/
def sTwoBlocks : List Char :=
  "VCB+AQIDAAAAAAAAAAAAAgAAAAEAAAANAAAABwAAAAhbAAAADQAAAAcAAAAIXA==".toList

/-- Envelope of a bare 17-byte header (checksum all zero); the characters
after the base64 padding are ignored by the lenient decoder and only pad the
string to the 40-character minimum. -/
def sHeaderA : List Char := "VCB+AQIDAAAAAAAAAAAAAgAAAAE=AAAAAAAAAAAAAAAA".toList

/-- Same as `sHeaderA` except the six checksum bytes are all one. -/
def sHeaderB : List Char := "VCB+AQIDAQEBAQEBAAAAAgAAAAE=AAAAAAAAAAAAAAAA".toList

/-! ### Witnesses and counterexamples -/

/-- Witness for C1 at the concrete envelope `sExample`. -/
theorem blueprint_example_decodes_witness :
    read_blueprint zOne sExample =
      .ok ([1, 2, 3], [(7, [[[255, 0, 0, 255], [0, 255, 0, 255]]])]) :=
  blueprint_example_decodes zOne sExample [1, 2, 3] [9, 9, 9, 9, 9, 9]
    [0, 0, 0, 13] [42] (by decide) (by decide) (by decide) (by decide)
    (by decide) (by decide) (by decide) (by decide)

/-- Witness for C2: a block declaring uncompressed size 4 whose frame
decompresses to 3 bytes. -/
theorem uncompressed_size_mismatch_raises_witness :
    _read_block zThree ⟨[0, 0, 0, 13, 0, 0, 0, 7, 0, 0, 0, 4, 5], 0⟩ =
        .error .SizeMismatchError ∧
    readBlocks zThree 1 1 [] ⟨[0, 0, 0, 13, 0, 0, 0, 7, 0, 0, 0, 4, 5], 0⟩ =
        .error .SizeMismatchError :=
  uncompressed_size_mismatch_raises zThree 1 1 []
    [0, 0, 0, 13, 0, 0, 0, 7, 0, 0, 0, 4, 5] 0 13
    ⟨[0, 0, 0, 13, 0, 0, 0, 7, 0, 0, 0, 4, 5], 4⟩ 7
    ⟨[0, 0, 0, 13, 0, 0, 0, 7, 0, 0, 0, 4, 5], 8⟩ 4
    ⟨[0, 0, 0, 13, 0, 0, 0, 7, 0, 0, 0, 4, 5], 12⟩ [1, 2, 3]
    (by decide) (by decide) (by decide) (by decide) (by decide) (by decide)

/-- Witness for C4 at a 1-byte and at a 17-byte payload. -/
theorem header_consumes_17_bytes_witness :
    _read_header ⟨[0], 0⟩ = .error .TruncatedInputError ∧
    _read_header ⟨[1, 2, 3, 4, 5, 6, 7, 8, 9, 0, 0, 0, 2, 0, 0, 0, 1], 0⟩ =
      .ok ([1, 2, 3], [4, 5, 6, 7, 8, 9], 2, 1,
        ⟨[1, 2, 3, 4, 5, 6, 7, 8, 9, 0, 0, 0, 2, 0, 0, 0, 1], 17⟩) :=
  ⟨(header_consumes_17_bytes [0]).1 (by decide),
   (header_consumes_17_bytes [1, 2, 3, 4, 5, 6, 7, 8, 9, 0, 0, 0, 2, 0, 0, 0, 1]).2
     (by decide)⟩

/-- Counterexample for C5 as originally stated: `sSmallBlock` reaches a block
whose declared block_size is 0 (< 12) with 12 bytes remaining, yet the decode
fails with `DecompressionError`, not `TruncatedInputError`. -/
theorem small_block_size_not_truncated_cex :
    b64decode (sSmallBlock.drop 4) = some bytesSmallBlock ∧
    _readint ⟨bytesSmallBlock, 17⟩ = .ok (0, ⟨bytesSmallBlock, 21⟩) ∧
    12 ≤ bytesSmallBlock.length - 17 ∧
    read_blueprint zNone sSmallBlock = .error .DecompressionError ∧
    read_blueprint zNone sSmallBlock ≠ .error .TruncatedInputError :=
  ⟨by decide, by decide, by decide, by decide, by decide⟩

/-- Witness for the amended C5: truncation on a 1-byte buffer, and the
read-to-end behaviour of the block of `bytesSmallBlock` with block_size 0. -/
theorem block_header_truncation_amended_witness :
    readBlocks zNone 2 1 [] ⟨[0], 0⟩ = .error .TruncatedInputError ∧
    _read_block zNone ⟨bytesSmallBlock, 17⟩ = .error .DecompressionError := by
  constructor
  · exact (block_header_truncation_amended zNone 2 1 [] [0] 0).1
      (by decide) (by decide)
  · have h := (block_header_truncation_amended zNone 2 1 [] bytesSmallBlock 17).2
      0 ⟨bytesSmallBlock, 21⟩ 1 ⟨bytesSmallBlock, 25⟩ 5 ⟨bytesSmallBlock, 29⟩
      (by decide) (by decide) (by decide) (by decide)
    rw [h]
    rfl

/-- Counterexample for C6 as originally stated: `sShortPayload` reaches a
block declaring a 4-byte payload with only 2 bytes remaining, yet the decode
fails with `DecompressionError`, not `TruncatedInputError`. -/
theorem short_payload_not_truncated_cex :
    b64decode (sShortPayload.drop 4) = some bytesShortPayload ∧
    _readint ⟨bytesShortPayload, 17⟩ = .ok (16, ⟨bytesShortPayload, 21⟩) ∧
    bytesShortPayload.length - 29 < 16 - 12 ∧
    read_blueprint zNone sShortPayload = .error .DecompressionError ∧
    read_blueprint zNone sShortPayload ≠ .error .TruncatedInputError :=
  ⟨by decide, by decide, by decide, by decide, by decide⟩

/-- Witness for the amended C6 at the block of `bytesShortPayload`. -/
theorem short_payload_short_read_amended_witness :
    _read_block zNone ⟨bytesShortPayload, 17⟩ = .error .DecompressionError := by
  have h := short_payload_short_read_amended zNone bytesShortPayload 17
    16 ⟨bytesShortPayload, 21⟩ 7 ⟨bytesShortPayload, 25⟩ 4 ⟨bytesShortPayload, 29⟩
    (by decide) (by decide) (by decide) (by decide) (by decide)
  rw [h]
  rfl

/-- Witness for C7: a 3-byte payload against a (1,1) raster fails the
reshape; a 4-byte payload is inserted as the (1,1,4) raster. -/
theorem raster_size_check_witness :
    readBlocks zThree 1 1 [] ⟨[0, 0, 0, 13, 0, 0, 0, 7, 0, 0, 0, 3, 5], 0⟩ =
        .error .SizeMismatchError ∧
    readBlocks zFour 1 1 [] ⟨[0, 0, 0, 13, 0, 0, 0, 7, 0, 0, 0, 4, 5], 0⟩ =
      readBlocks zFour 1 1 (dictInsert [] 7 (reshapeRGBA 1 1 [1, 2, 3, 4]))
        ⟨[0, 0, 0, 13, 0, 0, 0, 7, 0, 0, 0, 4, 5], 13⟩ := by
  constructor
  · exact (raster_size_check zThree 1 1 [] ⟨[0, 0, 0, 13, 0, 0, 0, 7, 0, 0, 0, 3, 5], 0⟩
      7 [1, 2, 3] ⟨[0, 0, 0, 13, 0, 0, 0, 7, 0, 0, 0, 3, 5], 13⟩
      (by decide) (by decide)).1 (by decide)
  · exact (raster_size_check zFour 1 1 [] ⟨[0, 0, 0, 13, 0, 0, 0, 7, 0, 0, 0, 4, 5], 0⟩
      7 [1, 2, 3, 4] ⟨[0, 0, 0, 13, 0, 0, 0, 7, 0, 0, 0, 4, 5], 13⟩
      (by decide) (by decide)).2 (by decide)

/-- Witness for C8 at the two-block envelope `sTwoBlocks`. -/
theorem duplicate_layer_id_overwrites_witness :
    countKey [(7, reshapeRGBA 1 2 [10, 20, 30, 40, 50, 60, 70, 80])] 7 = 1 ∧
    lookupLayer [(7, reshapeRGBA 1 2 [10, 20, 30, 40, 50, 60, 70, 80])] 7 =
      (([((7 : Nat), reshapeRGBA 1 2 [255, 0, 0, 255, 0, 255, 0, 255]),
         (7, reshapeRGBA 1 2 [10, 20, 30, 40, 50, 60, 70, 80])].filter
           (fun p => p.1 == 7)).getLast?).map Prod.snd :=
  duplicate_layer_id_overwrites zTwo sTwoBlocks [1, 2, 3]
    [(7, reshapeRGBA 1 2 [10, 20, 30, 40, 50, 60, 70, 80])]
    [(7, reshapeRGBA 1 2 [255, 0, 0, 255, 0, 255, 0, 255]),
     (7, reshapeRGBA 1 2 [10, 20, 30, 40, 50, 60, 70, 80])] 7
    (by decide) (by decide) (by decide)

/-- Witness for C9: two envelopes differing only in the checksum bytes. -/
theorem checksum_bytes_ignored_witness :
    read_blueprint zNone sHeaderA = read_blueprint zNone sHeaderB :=
  checksum_bytes_ignored zNone sHeaderA sHeaderB
    [1, 2, 3, 0, 0, 0, 0, 0, 0, 0, 0, 0, 2, 0, 0, 0, 1]
    [1, 2, 3, 1, 1, 1, 1, 1, 1, 0, 0, 0, 2, 0, 0, 0, 1]
    (by decide) (by decide) (by decide) (by decide) (by decide) (by decide)
    (by decide) (by decide) (by decide)

/-- Witness for C10 at the header-only envelope `sHeaderA`. -/
theorem header_only_empty_layers_witness :
    read_blueprint zNone sHeaderA = .ok ([1, 2, 3], []) :=
  header_only_empty_layers zNone sHeaderA
    [1, 2, 3, 0, 0, 0, 0, 0, 0, 0, 0, 0, 2, 0, 0, 0, 1]
    (by decide) (by decide) (by decide) (by decide)

end VCB
